import Mathlib

/-!
Shallow embedding of graffiti_monkey/core.py (class GraffitiMonkey) and proofs
about its tag-propagation logic.

Modelling conventions:
- Python dicts are insertion-ordered association lists; dict keys are pairwise
  distinct, which theorems take as a Nodup hypothesis where it matters.
- A tag value is an Option String, because the code stores None as a tag value
  (the synthetic instance_id / device tags can be None in Python).
- Fallible code returns Except PyError; uncaught Python exceptions are error
  values (KeyError from a missing dict key, GraffitiMonkeyException from the
  TaggedEC2Object check, NameError from the undefined variables in the
  snapshot-id validation branch of tag_snapshots).
- Network effects are modelled explicitly: a Provider value stands for the
  EC2 inventory, and write calls (resource.add_tags) are collected in lists.
-/

namespace GraffitiMonkey

/-- A Python tag value: a string, or None. -/
abbrev TagVal := Option String

/-- A Python dict of tags, as an insertion-ordered association list. -/
abbrev Tags := List (String × TagVal)

/-- First-match lookup in an association list; models Python d[k] and (k in d). -/
def lookupKey {β : Type} : List (String × β) → String → Option β
  | [], _ => none
  | (k, v) :: rest, key => if k = key then some v else lookupKey rest key

/-- Replace the binding for key k by (k, v), leaving other bindings alone. -/
def replacePair {β : Type} (k : String) (v : β) (p : String × β) :
    String × β :=
  if p.1 = k then (k, v) else p

/-- Python d[k] = v on a dict: overwrite the binding in place when the key is
present, otherwise append the new binding at the end. -/
def dictSet {β : Type} (d : List (String × β)) (k : String) (v : β) :
    List (String × β) :=
  if (lookupKey d k).isSome then d.map (replacePair k v)
  else d ++ [(k, v)]

/-- Apply a delta dict binding by binding, in iteration order.  Models both the
provider merging a written tag delta into a resource's tags and boto updating
the local tag dict after add_tags (tag writes are merges, not replacements). -/
def applyDelta (d delta : Tags) : Tags :=
  delta.foldl (fun acc kv => dictSet acc kv.1 kv.2) d

/-- Embeds the delta loop of GraffitiMonkey._set_resource_tags:
the entry (tag_key, tag_value) goes into delta_tags exactly when
tag_key is not in resource.tags or resource.tags[tag_key] differs. -/
def computeDelta (resourceTags tags : Tags) : Tags :=
  tags.foldl
    (fun delta kv =>
      if lookupKey resourceTags kv.1 = some kv.2 then delta
      else dictSet delta kv.1 kv.2)
    []

/-- Uncaught Python exceptions of core.py that our embedding can produce. -/
inductive PyError where
  | keyError
  | gmException
  | nameError
deriving DecidableEq

/-- Embeds GraffitiMonkey._set_resource_tags.  The resource is abstracted to
the data the method uses: whether it is a TaggedEC2Object (taggable) and its
current tags.  The result is the list of write calls issued (each one a delta
dict passed to resource.add_tags): no call when the delta is empty, one call
with the delta otherwise. -/
def set_resource_tags (taggable : Bool) (resourceTags tags : Tags) :
    Except PyError (List Tags) :=
  if !taggable then .error .gmException
  else
    let delta := computeDelta resourceTags tags
    if delta.length = 0 then .ok []
    else .ok [delta]

/-- Attachment data of a volume (boto attach_data): the owning instance id and
the device path, either of which can be unset (None or empty). -/
structure AttachData where
  instance_id : Option String
  device : Option String
deriving DecidableEq

/-- An EBS volume as core.py reads it: id, status string ("in-use" when
attached), size in GB, attachment data, tag dict, and whether the object is a
TaggedEC2Object (the defensive isinstance check in _set_resource_tags). -/
structure Volume where
  id : String
  status : String
  size : Nat
  attach_data : AttachData
  tags : Tags
  taggable : Bool
deriving DecidableEq

/-- An EC2 instance: id and tag dict. -/
structure Ec2Instance where
  id : String
  tags : Tags
deriving DecidableEq

/-- An EBS snapshot: id, source volume id, owner account, tag dict, and the
TaggedEC2Object flag. -/
structure Snapshot where
  id : String
  volume_id : String
  owner : String
  tags : Tags
  taggable : Bool
deriving DecidableEq

/-- Python truthiness of an optional string, as used by
`if volume.attach_data.instance_id:` — None and the empty string are falsy. -/
def truthy : Option String → Option String
  | none => none
  | some s => if s = "" then none else some s

/-- Tag propagation loop shared by tag_volume and tag_snapshot: for each tag
name in the configured list, if the parent has it, copy its value into the
accumulator dict. -/
def propagateFrom (parentTags : Tags) (tagNames : List String) (acc : Tags) :
    Tags :=
  tagNames.foldl
    (fun acc tagName =>
      match lookupKey parentTags tagName with
      | some v => dictSet acc tagName v
      | none => acc)
    acc

/-- The tags_to_set dict that tag_volume builds for a volume attached to
instance iid: seeded with the volume's own tag dict in append mode (an alias
of volume.tags, not a copy) or empty otherwise, then the propagated instance
tags, then the synthetic instance_id and device entries. -/
def volumeTagsToSet (append : Bool) (tagNames : List String) (volume : Volume)
    (inst : Ec2Instance) (iid : String) : Tags :=
  dictSet
    (dictSet
      (propagateFrom inst.tags tagNames (if append then volume.tags else []))
      "instance_id" (some iid))
    "device" (truthy volume.attach_data.device)

/-- Result of one call of tag_volume / tag_snapshot: the Python return value
(always True on success), the resource object's in-memory tag dict after the
call (in append mode tags_to_set aliases it, so it is mutated), and the write
calls issued to the provider (each a delta dict). -/
structure TagResult where
  result : Bool
  mem_tags : Tags
  writes : List Tags
deriving DecidableEq

/-- Common tail of tag_volume and tag_snapshot once tags_to_set (ts) is
built: with dry-run, log and return True with no write; otherwise call
_set_resource_tags on the resource's current tag dict and record the writes,
which boto also merges back into the in-memory dict.  current is the dict
_set_resource_tags reads as resource.tags: the resource's own tags in
replace mode, and ts itself in append mode (where tags_to_set aliases the
resource's tag dict). -/
def finishTagging (dryrun taggable : Bool) (current ts : Tags) :
    Except PyError TagResult :=
  if dryrun then .ok ⟨true, current, []⟩
  else
    match set_resource_tags taggable current ts with
    | .error e => .error e
    | .ok writes => .ok ⟨true, writes.foldl applyDelta current, writes⟩

/-- Embeds GraffitiMonkey.tag_volume.  Reads the attachment data, looks the
instance up in the instances dict (KeyError when the id is falsy or absent),
builds tags_to_set, then either logs (dry-run) or calls _set_resource_tags.
Note that in append mode tags_to_set IS volume.tags (same dict), so the
current tags passed to _set_resource_tags are the already-mutated dict, and
the in-memory tags change even in dry-run mode. -/
def tag_volume (dryrun append : Bool) (instance_tags_to_propagate : List String)
    (volume : Volume) (instances : List (String × Ec2Instance)) :
    Except PyError TagResult :=
  match truthy volume.attach_data.instance_id with
  | none => .error .keyError
  | some iid =>
    match lookupKey instances iid with
    | none => .error .keyError
    | some inst =>
      let ts := volumeTagsToSet append instance_tags_to_propagate volume inst iid
      finishTagging dryrun volume.taggable (if append then ts else volume.tags) ts

/-- Embeds GraffitiMonkey.tag_snapshot: look the source volume up in the
volumes dict (KeyError when absent), propagate the configured volume tags,
then either log (dry-run) or call _set_resource_tags.  The same append-mode
aliasing of tags_to_set and snapshot.tags applies. -/
def tag_snapshot (dryrun append : Bool) (volume_tags_to_propagate : List String)
    (snapshot : Snapshot) (volumes : List (String × Volume)) :
    Except PyError TagResult :=
  match lookupKey volumes snapshot.volume_id with
  | none => .error .keyError
  | some vol =>
    let ts := propagateFrom vol.tags volume_tags_to_propagate
      (if append then snapshot.tags else [])
    finishTagging dryrun snapshot.taggable (if append then ts else snapshot.tags) ts

/-- The configuration bundle handed to GraffitiMonkey.__init__ by the caller
(the CLI layer), stored on self.  The two *_to_tag lists are the explicit
resource-id filters. -/
structure Config where
  region : String
  profile : String
  instance_tags_to_propagate : List String
  volume_tags_to_propagate : List String
  dryrun : Bool
  append : Bool
  volumes_to_tag : List String
  snapshots_to_tag : List String
  novolumes : Bool
  nosnapshots : Bool
deriving DecidableEq

/-- The provider-side EC2 inventory seen through self._conn: volumes,
snapshots (with their owning account), and instances.  selfId is the account
the connection authenticates as (what owner='self' resolves to). -/
structure Provider where
  selfId : String
  volumes : List Volume
  snapshots : List Snapshot
  instances : List Ec2Instance
deriving DecidableEq

/-- conn.get_all_volumes, optionally with a volume-id filter. -/
def get_all_volumes (p : Provider) (idFilter : Option (List String)) :
    List Volume :=
  match idFilter with
  | none => p.volumes
  | some ids => p.volumes.filter (fun v => decide (v.id ∈ ids))

/-- conn.get_all_snapshots(owner='self', ...), optionally with a snapshot-id
filter.  Both call sites in tag_snapshots pass owner='self', so the returned
snapshots are always restricted to the connected account. -/
def get_all_snapshots_self (p : Provider) (idFilter : Option (List String)) :
    List Snapshot :=
  match idFilter with
  | none => p.snapshots.filter (fun s => decide (s.owner = p.selfId))
  | some ids =>
      p.snapshots.filter (fun s => decide (s.owner = p.selfId ∧ s.id ∈ ids))

/-- Python list.remove: delete the first occurrence of a value. -/
def removeFirst : List String → String → List String
  | [], _ => []
  | x :: xs, y => if x = y then xs else x :: removeFirst xs y

/-- CPython semantics of the volume-id validation loop of tag_volumes:
for volume_id in self._volumes_to_tag:
    if volume_id not in volume_ids: log(...); self._volumes_to_tag.remove(volume_id)
The for statement iterates by an internal index over the list being mutated,
so after a removal the element that shifts into the removed slot is skipped.
Arguments: the current index, the current list, and the ids logged so far;
the fuel only bounds the recursion and equals the initial list length, which
the index (incremented every step against a never-growing list) cannot
exceed.  Returns the final list and the logged ids. -/
def pyValidateGo (present : List String) :
    Nat → Nat → List String → List String → List String × List String
  | 0, _, lst, logged => (lst, logged)
  | fuel + 1, i, lst, logged =>
    if h : i < lst.length then
      let x := lst.get ⟨i, h⟩
      if x ∈ present then pyValidateGo present fuel (i + 1) lst logged
      else pyValidateGo present fuel (i + 1) (removeFirst lst x) (logged ++ [x])
    else (lst, logged)

/-- The whole validation loop: requested is self._volumes_to_tag, present the
ids the provider actually returned. -/
def pyValidate (present requested : List String) :
    List String × List String :=
  pyValidateGo present requested.length 0 requested []

/-- The per-volume loop of GraffitiMonkey.tag_volumes (lines 135-157): skip
volumes whose status is not "in-use", otherwise run tag_volume.  In this pure
embedding the provider never raises EC2ResponseError / BotoServerError, so
the retry loop's only reachable paths are first-attempt success and an
uncaught exception (KeyError, GraffitiMonkeyException), which the except
clauses do not catch and which therefore aborts the whole stage.  Returns the
write calls issued, tagged with the id of the volume they were issued for. -/
def tagVolumesLoop (dryrun append : Bool) (tagNames : List String)
    (instances : List (String × Ec2Instance)) :
    List Volume → Except PyError (List (String × Tags))
  | [] => .ok []
  | v :: rest =>
    if v.status ≠ "in-use" then
      tagVolumesLoop dryrun append tagNames instances rest
    else
      match tag_volume dryrun append tagNames v instances with
      | .error e => .error e
      | .ok r =>
        match tagVolumesLoop dryrun append tagNames instances rest with
        | .error e => .error e
        | .ok ws => .ok (r.writes.map (fun d => (v.id, d)) ++ ws)

/-- The listing-and-validation step of GraffitiMonkey.tag_volumes.  With a
non-empty explicit filter it lists just those volumes and runs the
validation loop, which removes requested ids missing from the listing from
self._volumes_to_tag in place (mutating the caller's config); otherwise it
lists every volume.  Returns the working volume set and the (possibly
mutated) config. -/
def volumesListerStep (cfg : Config) (p : Provider) : List Volume × Config :=
  if cfg.volumes_to_tag ≠ [] then
    let vols := get_all_volumes p (some cfg.volumes_to_tag)
    (vols,
     { cfg with volumes_to_tag :=
        (pyValidate (vols.map Volume.id) cfg.volumes_to_tag).1 })
  else (get_all_volumes p none, cfg)

/-- The bulk parent fetch of tag_volumes: one get_all_instances call filtered
on the attachment instance ids of the listed volumes, turned into a dict
keyed by instance id. -/
def volumesParentDict (p : Provider) (volumes : List Volume) :
    List (String × Ec2Instance) :=
  (p.instances.filter (fun i =>
      decide (some i.id ∈ volumes.map (fun v => v.attach_data.instance_id)))).map
    (fun i => (i.id, i))

/-- Embeds GraffitiMonkey.tag_volumes: lister and validation, early success
on an empty listing, bulk parent fetch, then the per-volume loop.  Returns
the (possibly mutated) config and the write calls. -/
def tag_volumes (cfg : Config) (p : Provider) :
    Except PyError (Config × List (String × Tags)) :=
  let step := volumesListerStep cfg p
  if step.1.isEmpty then .ok (step.2, [])
  else
    match tagVolumesLoop step.2.dryrun step.2.append
        step.2.instance_tags_to_propagate (volumesParentDict p step.1)
        step.1 with
    | .error e => .error e
    | .ok ws => .ok (step.2, ws)

/-- The snapshot working set that GraffitiMonkey.tag_snapshots obtains from
the provider: with a non-empty explicit filter, get_all_snapshots with
owner='self' and the snapshot-id filter; otherwise get_all_snapshots with
owner='self' alone. -/
def snapshotWorkingSet (cfg : Config) (p : Provider) : List Snapshot :=
  if cfg.snapshots_to_tag ≠ [] then
    get_all_snapshots_self p (some cfg.snapshots_to_tag)
  else get_all_snapshots_self p none

/-- The per-snapshot loop of GraffitiMonkey.tag_snapshots (lines 242-258);
same retry structure as tagVolumesLoop, no status check. -/
def tagSnapshotsLoop (dryrun append : Bool) (tagNames : List String)
    (volumes : List (String × Volume)) :
    List Snapshot → Except PyError (List (String × Tags))
  | [] => .ok []
  | s :: rest =>
    match tag_snapshot dryrun append tagNames s volumes with
    | .error e => .error e
    | .ok r =>
      match tagSnapshotsLoop dryrun append tagNames volumes rest with
      | .error e => .error e
      | .ok ws => .ok (r.writes.map (fun d => (s.id, d)) ++ ws)

/-- The bulk parent fetch of tag_snapshots: one get_all_volumes call filtered
on the source-volume ids of the listed snapshots, turned into a dict keyed
by volume id. -/
def snapshotsParentDict (p : Provider) (snapshots : List Snapshot) :
    List (String × Volume) :=
  (p.volumes.filter (fun v =>
      decide (v.id ∈ snapshots.map Snapshot.volume_id))).map
    (fun v => (v.id, v))

/-- Embeds GraffitiMonkey.tag_snapshots.  In the explicit-filter branch the
code lists the snapshots and then runs
for snapshot_id in self._snapshots_to_tag:
    if volume_id not in volume_ids: ...
where volume_id and volume_ids are never assigned in this scope, so with a
non-empty filter the first loop iteration raises NameError, aborting the
stage.  The no-filter branch lists all self-owned snapshots, bulk-builds the
source-volume dict and runs the per-snapshot loop. -/
def tag_snapshots (cfg : Config) (p : Provider) :
    Except PyError (Config × List (String × Tags)) :=
  if cfg.snapshots_to_tag ≠ [] then
    let _snapshots := snapshotWorkingSet cfg p
    .error .nameError
  else
    let snapshots := snapshotWorkingSet cfg p
    if snapshots.isEmpty then .ok (cfg, [])
    else
      match tagSnapshotsLoop cfg.dryrun cfg.append cfg.volume_tags_to_propagate
          (snapshotsParentDict p snapshots) snapshots with
      | .error e => .error e
      | .ok ws => .ok (cfg, ws)

/-- Outcome of one attempt of the wrapped per-resource tagging operation, as
the stage loop's except clauses classify it: success, EC2ResponseError (a
client-side, permanent error: caught, logged, break), BotoServerError (a
transient server error: caught, logged, sleep(attempt), retry), or any other
exception, which no except clause catches. -/
inductive AttemptOutcome where
  | success
  | ec2ResponseError
  | botoServerError
  | uncaughtException
deriving DecidableEq

/-- Terminal state of the retry wrapper for one resource. -/
inductive RetryResult where
  | Success
  | PermanentFailure
  | ExhaustedFailure
deriving DecidableEq

/-- Embeds the retry control structure
for attempt in range(5): try: ... except EC2ResponseError: break
except BotoServerError: sleep(attempt) else: break else: exhausted
over an abstract propagator f giving the outcome of each attempt.  Carries
the remaining attempt numbers, the count of attempts made and the sleep
durations so far; an uncaught exception propagates as an error. -/
def retryGo (f : Nat → AttemptOutcome) :
    List Nat → Nat → List Nat → Nat × List Nat × Except Unit RetryResult
  | [], count, sleeps => (count, sleeps, .ok .ExhaustedFailure)
  | attempt :: rest, count, sleeps =>
    match f attempt with
    | .success => (count + 1, sleeps, .ok .Success)
    | .ec2ResponseError => (count + 1, sleeps, .ok .PermanentFailure)
    | .botoServerError => retryGo f rest (count + 1) (sleeps ++ [attempt])
    | .uncaughtException => (count + 1, sleeps, .error ())

/-- The retry wrapper around one resource: attempts 0..4, no prior attempts
or sleeps.  Returns (number of attempts made, sleep durations in order,
terminal state or uncaught exception). -/
def retryResource (f : Nat → AttemptOutcome) :
    Nat × List Nat × Except Unit RetryResult :=
  retryGo f (List.range 5) 0 []

/-- The stage loop over a batch of resources, each wrapped in the retry loop;
f gives the outcome of attempt a on resource i.  An uncaught exception from
one resource propagates out of the stage loop, aborting the batch at that
resource; the caught outcomes let the loop continue to the next resource. -/
def processBatch (f : Nat → Nat → AttemptOutcome) :
    List Nat → Except Nat (List RetryResult)
  | [] => .ok []
  | i :: rest =>
    match (retryResource (f i)).2.2 with
    | .error _ => .error i
    | .ok r => (processBatch f rest).map (fun rs => r :: rs)

/-! Concrete fixtures used by witnesses and counterexamples. -/

/-- A parent instance with two tags. -/
def instExample : Ec2Instance :=
  ⟨"i-1", [("env", some "prod"), ("team", some "web")]⟩

/-- An attached volume with one pre-existing tag. -/
def volExample : Volume :=
  ⟨"v-1", "in-use", 8, ⟨some "i-1", some "/dev/sda1"⟩, [("keep", some "me")], true⟩

/-- An unattached volume (status "available"). -/
def volUnattached : Volume :=
  ⟨"v-9", "available", 4, ⟨none, none⟩, [("old", some "tag")], true⟩

/-- A volume that is not a TaggedEC2Object: _set_resource_tags raises
GraffitiMonkeyException on it. -/
def volBad : Volume :=
  ⟨"v-bad", "in-use", 1, ⟨some "i-1", some "/dev/sdf"⟩, [], false⟩

/-- A second, well-formed volume, sibling of volBad in the batch. -/
def volGood : Volume :=
  ⟨"v-2", "in-use", 8, ⟨some "i-1", some "/dev/sdg"⟩, [], true⟩

/-- The instances dict for the examples. -/
def instancesExample : List (String × Ec2Instance) := [("i-1", instExample)]

/-- A snapshot of volExample owned by the connected account. -/
def snapExample : Snapshot := ⟨"s-1", "v-1", "111122223333", [], true⟩

/-- A snapshot of volExample owned by another account (shared/public). -/
def snapForeign : Snapshot := ⟨"s-2", "v-1", "999999999999", [], true⟩

/-- The example volume as it looks after the volume stage propagated the env
tag onto it; parent of the example snapshots. -/
def volTagged : Volume :=
  ⟨"v-1", "in-use", 8, ⟨some "i-1", some "/dev/sda1"⟩,
    [("env", some "prod"), ("keep", some "me")], true⟩

/-- The source-volume dict for the snapshot examples. -/
def volumesDictExample : List (String × Volume) := [("v-1", volTagged)]

/-- A baseline configuration: no dry-run, replace mode, no explicit filters. -/
def cfgBase : Config :=
  ⟨"us-east-1", "default", ["env"], ["env"], false, false, [], [], false, false⟩

/-- Configuration with an explicit snapshot-id filter (triggers the broken
validation branch of tag_snapshots). -/
def cfgSnapFilter : Config := { cfgBase with snapshots_to_tag := ["snap-a"] }

/-- Configuration requesting one volume id that the provider does not have. -/
def cfgMissingVol : Config := { cfgBase with volumes_to_tag := ["vol-a"] }

/-- A provider with no resources at all. -/
def provEmpty : Provider := ⟨"111122223333", [], [], []⟩

/-- A provider whose volume batch starts with the non-taggable volume. -/
def provBadFirst : Provider :=
  ⟨"111122223333", [volBad, volGood], [], [instExample]⟩

/-- The same provider with only the well-formed sibling volume. -/
def provGoodOnly : Provider := ⟨"111122223333", [volGood], [], [instExample]⟩

/-- A provider holding the two example snapshots (one foreign-owned) and the
example volume and instance. -/
def provSnaps : Provider :=
  ⟨"111122223333", [volExample], [snapExample, snapForeign], [instExample]⟩

/-- Configuration requesting two volume ids that the provider does not have;
they are consecutive, which trips the remove-during-iteration defect. -/
def cfgTwoMissing : Config :=
  { cfgBase with volumes_to_tag := ["vol-a", "vol-b"] }

/-- Configuration explicitly requesting the foreign-owned snapshot id. -/
def cfgForeign : Config := { cfgBase with snapshots_to_tag := ["s-2"] }

/-- A propagator failing transiently on attempts 0 and 1, succeeding on
attempt 2. -/
def fTrans2 : Nat → AttemptOutcome :=
  fun i => if i < 2 then .botoServerError else .success

/-- A propagator that always fails transiently. -/
def fAllTrans : Nat → AttemptOutcome := fun _ => .botoServerError

/-- A propagator failing permanently on the first attempt. -/
def fPerm : Nat → AttemptOutcome := fun _ => .ec2ResponseError

/-- A two-resource batch behaviour: resource 0 fails permanently on every
attempt, every other resource fails transiently on every attempt. -/
def fMixed : Nat → Nat → AttemptOutcome :=
  fun i _ => if i = 0 then .ec2ResponseError else .botoServerError

/-- Result of the first example tag_volume run (used by the idempotence
witness): the full tag set is written. -/
def r1C3 : TagResult :=
  ⟨true, [("keep", some "me"), ("env", some "prod"),
    ("instance_id", some "i-1"), ("device", some "/dev/sda1")],
   [[("env", some "prod"), ("instance_id", some "i-1"),
     ("device", some "/dev/sda1")]]⟩

/-- Result of the second example tag_volume run: nothing is written. -/
def r2C3 : TagResult :=
  ⟨true, [("keep", some "me"), ("env", some "prod"),
    ("instance_id", some "i-1"), ("device", some "/dev/sda1")], []⟩

/-- Result of the first example tag_snapshot run. -/
def q1C3 : TagResult :=
  ⟨true, [("env", some "prod")], [[("env", some "prod")]]⟩

/-- Result of the second example tag_snapshot run: nothing is written. -/
def q2C3 : TagResult := ⟨true, [("env", some "prod")], []⟩

/-- Resource tags used by the C1 witness. -/
def rtC1 : Tags := [("env", some "old"), ("keep", some "x")]

/-- Desired tags used by the C1 witness. -/
def tsC1 : Tags := [("env", some "prod"), ("new", some "y")]

/-! Association-list lemmas about lookupKey, dictSet, applyDelta and
computeDelta. -/

theorem lookupKey_nil {β : Type} (k : String) :
    lookupKey ([] : List (String × β)) k = none := rfl

theorem lookupKey_cons {β : Type} (k0 : String) (v0 : β)
    (rest : List (String × β)) (k : String) :
    lookupKey ((k0, v0) :: rest) k =
      if k0 = k then some v0 else lookupKey rest k := rfl

theorem replacePair_hit {β : Type} (k : String) (v : β) (k0 : String) (v0 : β)
    (h : k0 = k) : replacePair k v (k0, v0) = (k, v) := by
  simp [replacePair, h]

theorem replacePair_miss {β : Type} (k : String) (v : β) (k0 : String) (v0 : β)
    (h : ¬ k0 = k) : replacePair k v (k0, v0) = (k0, v0) := by
  simp [replacePair, h]

theorem nodup_keys_cons {β : Type} {k : String} {v : β}
    {rest : List (String × β)} (h : (((k, v) :: rest).map Prod.fst).Nodup) :
    k ∉ rest.map Prod.fst ∧ (rest.map Prod.fst).Nodup := by
  rw [List.map_cons] at h
  exact ⟨(List.nodup_cons.1 h).1, (List.nodup_cons.1 h).2⟩

theorem lookupKey_append_of_none {β : Type} {a : List (String × β)}
    (b : List (String × β)) {k : String} (h : lookupKey a k = none) :
    lookupKey (a ++ b) k = lookupKey b k := by
  induction a with
  | nil => rfl
  | cons p rest ih =>
    obtain ⟨k0, v0⟩ := p
    rw [List.cons_append, lookupKey_cons]
    rw [lookupKey_cons] at h
    by_cases hk : k0 = k
    · rw [if_pos hk] at h
      cases h
    · rw [if_neg hk] at h ⊢
      exact ih h

theorem lookupKey_append_of_some {β : Type} {a : List (String × β)}
    (b : List (String × β)) {k : String} {v : β} (h : lookupKey a k = some v) :
    lookupKey (a ++ b) k = some v := by
  induction a with
  | nil => cases h
  | cons p rest ih =>
    obtain ⟨k0, v0⟩ := p
    rw [List.cons_append, lookupKey_cons]
    rw [lookupKey_cons] at h
    by_cases hk : k0 = k
    · rw [if_pos hk] at h ⊢
      exact h
    · rw [if_neg hk] at h ⊢
      exact ih h

theorem lookupKey_eq_none_iff {β : Type} (d : List (String × β)) (k : String) :
    lookupKey d k = none ↔ k ∉ d.map Prod.fst := by
  induction d with
  | nil => simp [lookupKey]
  | cons p rest ih =>
    obtain ⟨k0, v0⟩ := p
    rw [lookupKey_cons, List.map_cons]
    by_cases hk : k0 = k
    · simp [hk]
    · simp [hk, ih, Ne.symm hk]

theorem lookupKey_of_mem_of_nodup {β : Type} {d : List (String × β)}
    {k : String} {v : β} (hmem : (k, v) ∈ d) (hnd : (d.map Prod.fst).Nodup) :
    lookupKey d k = some v := by
  induction d with
  | nil => cases hmem
  | cons p rest ih =>
    obtain ⟨k0, v0⟩ := p
    rw [lookupKey_cons]
    rcases List.mem_cons.1 hmem with heq | hmem'
    · injection heq with hk hv
      rw [if_pos hk.symm, hv]
    · have hk : k0 ≠ k := by
        intro he
        have hkin : k ∈ rest.map Prod.fst := List.mem_map_of_mem Prod.fst hmem'
        have hnotin : k0 ∉ rest.map Prod.fst := (nodup_keys_cons hnd).1
        exact hnotin (he ▸ hkin)
      rw [if_neg hk]
      exact ih hmem' (nodup_keys_cons hnd).2

theorem dictSet_of_lookup_none {β : Type} (d : List (String × β)) (k : String)
    (v : β) (h : lookupKey d k = none) : dictSet d k v = d ++ [(k, v)] := by
  simp [dictSet, h]

theorem lookupKey_replace {β : Type} (d : List (String × β)) (k : String)
    (v : β) (h : (lookupKey d k).isSome) :
    lookupKey (d.map (replacePair k v)) k = some v := by
  induction d with
  | nil => cases h
  | cons p rest ih =>
    obtain ⟨k0, v0⟩ := p
    rw [List.map_cons]
    by_cases hk : k0 = k
    · rw [replacePair_hit k v k0 v0 hk, lookupKey_cons, if_pos rfl]
    · rw [replacePair_miss k v k0 v0 hk, lookupKey_cons, if_neg hk]
      rw [lookupKey_cons, if_neg hk] at h
      exact ih h

theorem lookupKey_replace_ne {β : Type} (d : List (String × β)) (k k2 : String)
    (v : β) (h : k2 ≠ k) :
    lookupKey (d.map (replacePair k v)) k2 = lookupKey d k2 := by
  induction d with
  | nil => rfl
  | cons p rest ih =>
    obtain ⟨k0, v0⟩ := p
    rw [List.map_cons, lookupKey_cons]
    by_cases hk : k0 = k
    · rw [replacePair_hit k v k0 v0 hk, lookupKey_cons, if_neg (Ne.symm h), ih,
        if_neg]
      rw [hk]
      exact Ne.symm h
    · rw [replacePair_miss k v k0 v0 hk, lookupKey_cons, ih]

theorem lookupKey_dictSet_self {β : Type} (d : List (String × β)) (k : String)
    (v : β) : lookupKey (dictSet d k v) k = some v := by
  by_cases hs : (lookupKey d k).isSome
  · simp only [dictSet, hs, if_true]
    exact lookupKey_replace d k v hs
  · have hn : lookupKey d k = none := Option.not_isSome_iff_eq_none.1 hs
    rw [dictSet_of_lookup_none d k v hn, lookupKey_append_of_none _ hn,
      lookupKey_cons, if_pos rfl]

theorem lookupKey_dictSet_ne {β : Type} (d : List (String × β)) (k k2 : String)
    (v : β) (h : k2 ≠ k) : lookupKey (dictSet d k v) k2 = lookupKey d k2 := by
  by_cases hs : (lookupKey d k).isSome
  · simp only [dictSet, hs, if_true]
    exact lookupKey_replace_ne d k k2 v h
  · have hn : lookupKey d k = none := Option.not_isSome_iff_eq_none.1 hs
    rw [dictSet_of_lookup_none d k v hn]
    cases hc : lookupKey d k2 with
    | some w => exact lookupKey_append_of_some _ hc
    | none =>
      rw [lookupKey_append_of_none _ hc, lookupKey_cons, if_neg (Ne.symm h)]
      rfl

theorem map_fst_replace {β : Type} (d : List (String × β)) (k : String)
    (v : β) :
    (d.map (replacePair k v)).map Prod.fst = d.map Prod.fst := by
  induction d with
  | nil => rfl
  | cons p rest ih =>
    obtain ⟨k0, v0⟩ := p
    rw [List.map_cons, List.map_cons, List.map_cons]
    by_cases hk : k0 = k
    · rw [replacePair_hit k v k0 v0 hk, ih, hk]
    · rw [replacePair_miss k v k0 v0 hk, ih]

theorem nodup_keys_dictSet {β : Type} (d : List (String × β)) (k : String)
    (v : β) (h : (d.map Prod.fst).Nodup) :
    ((dictSet d k v).map Prod.fst).Nodup := by
  by_cases hs : (lookupKey d k).isSome
  · simp only [dictSet, hs, if_true, map_fst_replace]
    exact h
  · have hn : lookupKey d k = none := Option.not_isSome_iff_eq_none.1 hs
    have hk : k ∉ d.map Prod.fst := (lookupKey_eq_none_iff d k).1 hn
    rw [dictSet_of_lookup_none d k v hn]
    simp [List.nodup_append, h, hk]

theorem applyDelta_nil (d : Tags) : applyDelta d [] = d := rfl

theorem applyDelta_cons (d : Tags) (kv : String × TagVal) (rest : Tags) :
    applyDelta d (kv :: rest) = applyDelta (dictSet d kv.1 kv.2) rest := rfl

theorem lookupKey_applyDelta_not_mem (d : Tags) (delta : Tags) (k : String)
    (h : k ∉ delta.map Prod.fst) :
    lookupKey (applyDelta d delta) k = lookupKey d k := by
  induction delta generalizing d with
  | nil => rfl
  | cons kv rest ih =>
    obtain ⟨k0, v0⟩ := kv
    have hk : k ≠ k0 := by
      intro he
      exact h (by simp [he])
    have h' : k ∉ rest.map Prod.fst := by
      intro hm
      exact h (by simp [hm])
    rw [applyDelta_cons, ih _ h']
    exact lookupKey_dictSet_ne d k0 k v0 hk

theorem lookupKey_applyDelta_mem (d : Tags) (delta : Tags) (k : String)
    (v : TagVal) (hnd : (delta.map Prod.fst).Nodup) (hmem : (k, v) ∈ delta) :
    lookupKey (applyDelta d delta) k = some v := by
  induction delta generalizing d with
  | nil => cases hmem
  | cons kv rest ih =>
    obtain ⟨k0, v0⟩ := kv
    have hnd' : (rest.map Prod.fst).Nodup := (nodup_keys_cons hnd).2
    rcases List.mem_cons.1 hmem with heq | hmem'
    · injection heq with hk hv
      subst hk
      subst hv
      rw [applyDelta_cons]
      have hknotin : k ∉ rest.map Prod.fst := (nodup_keys_cons hnd).1
      rw [lookupKey_applyDelta_not_mem _ _ _ hknotin]
      exact lookupKey_dictSet_self d k v
    · rw [applyDelta_cons]
      apply ih
      all_goals first | exact hnd' | exact hmem'

theorem computeDelta_go (rt : Tags) (ts : Tags) :
    ∀ acc : Tags, (ts.map Prod.fst).Nodup →
      (∀ kv ∈ ts, lookupKey acc kv.1 = none) →
      ts.foldl (fun delta kv =>
          if lookupKey rt kv.1 = some kv.2 then delta
          else dictSet delta kv.1 kv.2) acc
        = acc ++ ts.filter (fun kv => decide (¬ lookupKey rt kv.1 = some kv.2)) := by
  induction ts with
  | nil => intro acc _ _; simp
  | cons kv rest ih =>
    intro acc hnd hacc
    obtain ⟨k, v⟩ := kv
    have hnd' : (rest.map Prod.fst).Nodup := (nodup_keys_cons hnd).2
    by_cases hc : lookupKey rt k = some v
    · simp only [List.foldl_cons, if_pos hc]
      rw [ih acc hnd' (fun kv2 h2 => hacc kv2 (List.mem_cons_of_mem _ h2))]
      simp [List.filter_cons, hc]
    · have hacck : lookupKey acc k = none := hacc (k, v) (List.mem_cons_self _ _)
      simp only [List.foldl_cons, if_neg hc]
      rw [dictSet_of_lookup_none _ _ _ hacck]
      rw [ih (acc ++ [(k, v)]) hnd' ?hfresh]
      · simp [List.filter_cons, hc]
      case hfresh =>
        intro kv2 hkv2
        have h1 : lookupKey acc kv2.1 = none :=
          hacc kv2 (List.mem_cons_of_mem _ hkv2)
        have h2 : kv2.1 ≠ k := by
          intro he
          apply (nodup_keys_cons hnd).1
          exact he ▸ List.mem_map_of_mem Prod.fst hkv2
        rw [lookupKey_append_of_none _ h1]
        simp [lookupKey, Ne.symm h2]

theorem computeDelta_eq_filter (rt ts : Tags) (h : (ts.map Prod.fst).Nodup) :
    computeDelta rt ts =
      ts.filter (fun kv => decide (¬ lookupKey rt kv.1 = some kv.2)) := by
  have hgo := computeDelta_go rt ts [] h (fun kv _ => rfl)
  simpa [computeDelta] using hgo

theorem computeDelta_eq_nil (rt ts : Tags)
    (h : ∀ kv ∈ ts, lookupKey rt kv.1 = some kv.2) : computeDelta rt ts = [] := by
  suffices haux : ∀ (l acc : Tags), (∀ kv ∈ l, lookupKey rt kv.1 = some kv.2) →
      l.foldl (fun delta kv =>
          if lookupKey rt kv.1 = some kv.2 then delta
          else dictSet delta kv.1 kv.2) acc = acc by
    exact haux ts [] h
  intro l
  induction l with
  | nil => intro acc _; rfl
  | cons kv rest ih =>
    intro acc hall
    simp only [List.foldl_cons, if_pos (hall kv (List.mem_cons_self _ _))]
    exact ih acc (fun kv2 h2 => hall kv2 (List.mem_cons_of_mem _ h2))

theorem computeDelta_applyDelta (rt ts : Tags)
    (hnd : (ts.map Prod.fst).Nodup) :
    computeDelta (applyDelta rt (computeDelta rt ts)) ts = [] := by
  apply computeDelta_eq_nil
  intro kv hmem
  obtain ⟨k, v⟩ := kv
  by_cases hc : lookupKey rt k = some v
  · have hnotin : k ∉ (computeDelta rt ts).map Prod.fst := by
      rw [computeDelta_eq_filter rt ts hnd]
      intro hk
      rcases List.mem_map.1 hk with ⟨⟨k2, v2⟩, hmem2, hfst⟩
      rcases List.mem_filter.1 hmem2 with ⟨hmem3, hcond⟩
      have hk2 : k2 = k := hfst
      subst hk2
      have e1 := lookupKey_of_mem_of_nodup hmem3 hnd
      have e2 := lookupKey_of_mem_of_nodup hmem hnd
      have hv : v2 = v := Option.some_inj.1 (e1.symm.trans e2)
      rw [hv] at hcond
      simp [hc] at hcond
    rw [lookupKey_applyDelta_not_mem _ _ _ hnotin]
    exact hc
  · have hmemdelta : (k, v) ∈ computeDelta rt ts := by
      rw [computeDelta_eq_filter rt ts hnd]
      exact List.mem_filter.2 ⟨hmem, by simpa using hc⟩
    have hnd2 : ((computeDelta rt ts).map Prod.fst).Nodup := by
      rw [computeDelta_eq_filter rt ts hnd]
      exact List.Nodup.sublist ((List.filter_sublist _).map Prod.fst) hnd
    exact lookupKey_applyDelta_mem _ _ _ _ hnd2 hmemdelta

theorem nodup_keys_propagateFrom (parentTags : Tags) (tagNames : List String)
    (acc : Tags) (h : (acc.map Prod.fst).Nodup) :
    ((propagateFrom parentTags tagNames acc).map Prod.fst).Nodup := by
  induction tagNames generalizing acc with
  | nil => exact h
  | cons t rest ih =>
    show ((propagateFrom parentTags (t :: rest) acc).map Prod.fst).Nodup
    have hcons : propagateFrom parentTags (t :: rest) acc =
        propagateFrom parentTags rest
          (match lookupKey parentTags t with
           | some v => dictSet acc t v
           | none => acc) := rfl
    rw [hcons]
    cases hl : lookupKey parentTags t with
    | none => exact ih acc h
    | some v => exact ih _ (nodup_keys_dictSet _ _ _ h)

theorem set_resource_tags_self (ts : Tags) (h : (ts.map Prod.fst).Nodup) :
    set_resource_tags true ts ts = .ok [] := by
  have hd : computeDelta ts ts = [] :=
    computeDelta_eq_nil ts ts (fun kv hm => lookupKey_of_mem_of_nodup hm h)
  simp [set_resource_tags, hd]

theorem set_resource_tags_roundtrip (tg : Bool) (rt ts : Tags)
    (writes : List Tags) (hnd : (ts.map Prod.fst).Nodup)
    (h : set_resource_tags tg rt ts = .ok writes) :
    set_resource_tags tg (writes.foldl applyDelta rt) ts = .ok [] := by
  cases tg with
  | false => simp [set_resource_tags] at h
  | true =>
    have hfold : writes.foldl applyDelta rt =
        applyDelta rt (computeDelta rt ts) := by
      by_cases hlen : (computeDelta rt ts).length = 0
      · have hnil : computeDelta rt ts = [] := List.length_eq_zero.1 hlen
        have hw : writes = [] := by
          simp [set_resource_tags, hlen] at h
          exact h
        rw [hw, hnil, applyDelta_nil]
        rfl
      · have hw : writes = [computeDelta rt ts] := by
          simp [set_resource_tags, hlen] at h
          exact h.symm
        rw [hw]
        rfl
    rw [hfold]
    have hd := computeDelta_applyDelta rt ts hnd
    simp [set_resource_tags, hd]

theorem nodup_keys_applyDelta (d delta : Tags)
    (h : (d.map Prod.fst).Nodup) :
    ((applyDelta d delta).map Prod.fst).Nodup := by
  induction delta generalizing d with
  | nil => exact h
  | cons kv rest ih =>
    rw [applyDelta_cons]
    exact ih _ (nodup_keys_dictSet _ _ _ h)

theorem nodup_keys_foldl_applyDelta (writes : List Tags) (d : Tags)
    (h : (d.map Prod.fst).Nodup) :
    ((writes.foldl applyDelta d).map Prod.fst).Nodup := by
  induction writes generalizing d with
  | nil => exact h
  | cons w rest ih =>
    exact ih _ (nodup_keys_applyDelta _ _ h)

theorem nodup_keys_volumeTagsToSet (append : Bool) (tagNames : List String)
    (v : Volume) (inst : Ec2Instance) (iid : String)
    (h : (v.tags.map Prod.fst).Nodup) :
    ((volumeTagsToSet append tagNames v inst iid).map Prod.fst).Nodup := by
  apply nodup_keys_dictSet
  apply nodup_keys_dictSet
  apply nodup_keys_propagateFrom
  cases append with
  | true => exact h
  | false => simp

theorem finishTagging_self_writes_nil (dryrun tg : Bool) (ts : Tags)
    (r : TagResult) (hts : (ts.map Prod.fst).Nodup)
    (h : finishTagging dryrun tg ts ts = .ok r) : r.writes = [] := by
  cases dryrun with
  | true =>
    have h' : Except.ok (⟨true, ts, []⟩ : TagResult) =
        (Except.ok r : Except PyError TagResult) := h
    injection h' with h2
    rw [← h2]
  | false =>
    cases tg with
    | false =>
      have h' : (Except.error .gmException : Except PyError TagResult) =
          .ok r := h
      cases h'
    | true =>
      have h' : (match set_resource_tags true ts ts with
          | Except.error e => (Except.error e : Except PyError TagResult)
          | Except.ok writes =>
              Except.ok ⟨true, writes.foldl applyDelta ts, writes⟩) =
          .ok r := h
      rw [set_resource_tags_self ts hts] at h'
      injection h' with h2
      rw [← h2]

theorem finishTagging_roundtrip_writes_nil (dryrun tg : Bool) (rt ts : Tags)
    (r r2 : TagResult) (hts : (ts.map Prod.fst).Nodup)
    (h1 : finishTagging dryrun tg rt ts = .ok r)
    (h2 : finishTagging dryrun tg (r.writes.foldl applyDelta rt) ts = .ok r2) :
    r2.writes = [] := by
  cases dryrun with
  | true =>
    have h2' : Except.ok (⟨true, r.writes.foldl applyDelta rt, []⟩ : TagResult) =
        (Except.ok r2 : Except PyError TagResult) := h2
    injection h2' with h3
    rw [← h3]
  | false =>
    have h1' : (match set_resource_tags tg rt ts with
        | Except.error e => (Except.error e : Except PyError TagResult)
        | Except.ok writes =>
            Except.ok ⟨true, writes.foldl applyDelta rt, writes⟩) =
        .ok r := h1
    cases hset : set_resource_tags tg rt ts with
    | error e =>
      rw [hset] at h1'
      cases h1'
    | ok w =>
      rw [hset] at h1'
      injection h1' with h3
      have hw : r.writes = w := by rw [← h3]
      have hround := set_resource_tags_roundtrip tg rt ts w hts hset
      have h2' : (match set_resource_tags tg (r.writes.foldl applyDelta rt) ts with
          | Except.error e => (Except.error e : Except PyError TagResult)
          | Except.ok writes =>
              Except.ok ⟨true,
                writes.foldl applyDelta (r.writes.foldl applyDelta rt), writes⟩) =
          .ok r2 := h2
      rw [hw] at h2'
      rw [hround] at h2'
      injection h2' with h4
      rw [← h4]

theorem tag_volume_ok_inv (dryrun append : Bool) (tagNames : List String)
    (v : Volume) (instances : List (String × Ec2Instance)) (r : TagResult)
    (h : tag_volume dryrun append tagNames v instances = .ok r) :
    ∃ iid inst, truthy v.attach_data.instance_id = some iid ∧
      lookupKey instances iid = some inst ∧
      finishTagging dryrun v.taggable
        (if append then volumeTagsToSet append tagNames v inst iid else v.tags)
        (volumeTagsToSet append tagNames v inst iid) = .ok r := by
  cases htr : truthy v.attach_data.instance_id with
  | none =>
    unfold tag_volume at h
    rw [htr] at h
    cases h
  | some iid =>
    unfold tag_volume at h
    rw [htr] at h
    have h' : (match lookupKey instances iid with
        | none => (Except.error PyError.keyError : Except PyError TagResult)
        | some inst =>
            finishTagging dryrun v.taggable
              (if append then volumeTagsToSet append tagNames v inst iid
               else v.tags)
              (volumeTagsToSet append tagNames v inst iid)) =
        Except.ok r := h
    cases hlk : lookupKey instances iid with
    | none =>
      rw [hlk] at h'
      cases h'
    | some inst =>
      rw [hlk] at h'
      exact ⟨iid, inst, rfl, hlk, h'⟩

theorem tag_snapshot_ok_inv (dryrun append : Bool) (tagNames : List String)
    (s : Snapshot) (volumes : List (String × Volume)) (r : TagResult)
    (h : tag_snapshot dryrun append tagNames s volumes = .ok r) :
    ∃ vol, lookupKey volumes s.volume_id = some vol ∧
      finishTagging dryrun s.taggable
        (if append then
          propagateFrom vol.tags tagNames (if append then s.tags else [])
         else s.tags)
        (propagateFrom vol.tags tagNames (if append then s.tags else [])) =
        .ok r := by
  cases hlk : lookupKey volumes s.volume_id with
  | none =>
    unfold tag_snapshot at h
    rw [hlk] at h
    cases h
  | some vol =>
    unfold tag_snapshot at h
    rw [hlk] at h
    exact ⟨vol, rfl, h⟩

theorem propagateFrom_cons (parentTags : Tags) (t : String)
    (rest : List String) (acc : Tags) :
    propagateFrom parentTags (t :: rest) acc =
      propagateFrom parentTags rest
        (match lookupKey parentTags t with
         | some v => dictSet acc t v
         | none => acc) := rfl

theorem lookupKey_propagateFrom_preserve (parentTags : Tags)
    (tagNames : List String) (acc : Tags) (t : String) (val : TagVal)
    (hval : lookupKey parentTags t = some val)
    (hacc : lookupKey acc t = some val) :
    lookupKey (propagateFrom parentTags tagNames acc) t = some val := by
  induction tagNames generalizing acc with
  | nil => exact hacc
  | cons t2 rest ih =>
    rw [propagateFrom_cons]
    cases hl : lookupKey parentTags t2 with
    | none => exact ih acc hacc
    | some v2 =>
      apply ih
      by_cases ht : t2 = t
      · subst ht
        rw [hl] at hval
        injection hval with he
        rw [lookupKey_dictSet_self, he]
      · rw [lookupKey_dictSet_ne acc t2 t v2 (Ne.symm ht)]
        exact hacc

theorem lookupKey_propagateFrom_mem (parentTags : Tags)
    (tagNames : List String) (acc : Tags) (t : String) (val : TagVal)
    (hval : lookupKey parentTags t = some val) (hmem : t ∈ tagNames) :
    lookupKey (propagateFrom parentTags tagNames acc) t = some val := by
  induction tagNames generalizing acc with
  | nil => cases hmem
  | cons t2 rest ih =>
    rw [propagateFrom_cons]
    rcases List.mem_cons.1 hmem with heq | hmem'
    · subst heq
      rw [hval]
      exact lookupKey_propagateFrom_preserve parentTags rest _ t val hval
        (lookupKey_dictSet_self acc t val)
    · cases hl : lookupKey parentTags t2 with
      | none => exact ih _ hmem'
      | some v2 => exact ih _ hmem'

theorem lookupKey_propagateFrom_not_mem (parentTags : Tags)
    (tagNames : List String) (acc : Tags) (t : String) (h : t ∉ tagNames) :
    lookupKey (propagateFrom parentTags tagNames acc) t = lookupKey acc t := by
  induction tagNames generalizing acc with
  | nil => rfl
  | cons t2 rest ih =>
    have ht2 : t ≠ t2 := fun he => h (by rw [he]; exact List.mem_cons_self _ _)
    have hrest : t ∉ rest := fun hm => h (List.mem_cons_of_mem _ hm)
    rw [propagateFrom_cons]
    cases hl : lookupKey parentTags t2 with
    | none => exact ih _ hrest
    | some v2 =>
      rw [ih _ hrest, lookupKey_dictSet_ne acc t2 t v2 ht2]

theorem removeFirst_sublist (l : List String) (y : String) :
    (removeFirst l y).Sublist l := by
  induction l with
  | nil => exact List.Sublist.refl _
  | cons x xs ih =>
    by_cases hx : x = y
    · simp only [removeFirst, if_pos hx]
      exact List.sublist_cons_self _ _
    · simp only [removeFirst, if_neg hx]
      exact List.Sublist.cons₂ _ ih

theorem mem_removeFirst_of_ne {x y : String} {l : List String}
    (hne : x ≠ y) (h : x ∈ l) : x ∈ removeFirst l y := by
  induction l with
  | nil => cases h
  | cons z zs ih =>
    by_cases hz : z = y
    · simp only [removeFirst, if_pos hz]
      rcases List.mem_cons.1 h with heq | hm
      · exact absurd (heq.trans hz) hne
      · exact hm
    · simp only [removeFirst, if_neg hz]
      rcases List.mem_cons.1 h with heq | hm
      · exact heq ▸ List.mem_cons_self _ _
      · exact List.mem_cons_of_mem _ (ih hm)

theorem pyValidateGo_sublist (present : List String) :
    ∀ (fuel i : Nat) (lst logged : List String),
      ((pyValidateGo present fuel i lst logged).1).Sublist lst := by
  intro fuel
  induction fuel with
  | zero => intro i lst logged; exact List.Sublist.refl _
  | succ fuel ih =>
    intro i lst logged
    simp only [pyValidateGo]
    by_cases h : i < lst.length
    · rw [dif_pos h]
      by_cases hp : lst.get ⟨i, h⟩ ∈ present
      · rw [if_pos hp]
        exact ih (i + 1) lst logged
      · rw [if_neg hp]
        exact (ih (i + 1) _ _).trans (removeFirst_sublist lst _)
    · rw [dif_neg h]

theorem pyValidateGo_keeps_present (present : List String) :
    ∀ (fuel i : Nat) (lst logged : List String) (x : String),
      x ∈ present → x ∈ lst →
      x ∈ (pyValidateGo present fuel i lst logged).1 := by
  intro fuel
  induction fuel with
  | zero => intro i lst logged x _ hx; exact hx
  | succ fuel ih =>
    intro i lst logged x hxp hx
    simp only [pyValidateGo]
    by_cases h : i < lst.length
    · rw [dif_pos h]
      by_cases hp : lst.get ⟨i, h⟩ ∈ present
      · rw [if_pos hp]
        exact ih (i + 1) lst logged x hxp hx
      · rw [if_neg hp]
        have hne : x ≠ lst.get ⟨i, h⟩ := fun he => hp (he ▸ hxp)
        exact ih (i + 1) _ _ x hxp (mem_removeFirst_of_ne hne hx)
    · rw [dif_neg h]
      exact hx

theorem retryGo_no_uncaught (g : Nat → AttemptOutcome)
    (hg : ∀ a, g a ≠ .uncaughtException) :
    ∀ (l : List Nat) (c : Nat) (s : List Nat),
      ∃ c2 s2 r, retryGo g l c s = (c2, s2, .ok r) := by
  intro l
  induction l with
  | nil => intro c s; exact ⟨c, s, .ExhaustedFailure, rfl⟩
  | cons a rest ih =>
    intro c s
    simp only [retryGo]
    cases hga : g a with
    | success => exact ⟨c + 1, s, .Success, rfl⟩
    | ec2ResponseError => exact ⟨c + 1, s, .PermanentFailure, rfl⟩
    | botoServerError => exact ih (c + 1) (s ++ [a])
    | uncaughtException => exact absurd hga (hg a)

theorem tagVolumesLoop_writes_ids (dryrun append : Bool)
    (tagNames : List String) (instances : List (String × Ec2Instance)) :
    ∀ (l : List Volume) (ws : List (String × Tags)),
      tagVolumesLoop dryrun append tagNames instances l = .ok ws →
      ∀ i d, (i, d) ∈ ws → ∃ w ∈ l, w.id = i := by
  intro l
  induction l with
  | nil =>
    intro ws h i d hmem
    have h' : (Except.ok [] : Except PyError (List (String × Tags))) =
        .ok ws := h
    injection h' with h2
    rw [← h2] at hmem
    cases hmem
  | cons v rest ih =>
    intro ws h i d hmem
    by_cases hst : v.status ≠ "in-use"
    · have heq : tagVolumesLoop dryrun append tagNames instances (v :: rest) =
          tagVolumesLoop dryrun append tagNames instances rest := by
        simp only [tagVolumesLoop, if_pos hst]
      rw [heq] at h
      obtain ⟨w, hw, hwid⟩ := ih ws h i d hmem
      exact ⟨w, List.mem_cons_of_mem _ hw, hwid⟩
    · simp only [tagVolumesLoop] at h
      rw [if_neg hst] at h
      cases htv : tag_volume dryrun append tagNames v instances with
      | error e =>
        rw [htv] at h
        cases h
      | ok r =>
        rw [htv] at h
        have h2 : (match tagVolumesLoop dryrun append tagNames instances rest
              with
            | Except.error e =>
                (Except.error e : Except PyError (List (String × Tags)))
            | Except.ok ws2 =>
                Except.ok (r.writes.map (fun dd => (v.id, dd)) ++ ws2)) =
            .ok ws := h
        cases hrec : tagVolumesLoop dryrun append tagNames instances rest with
        | error e =>
          rw [hrec] at h2
          cases h2
        | ok ws2 =>
          rw [hrec] at h2
          injection h2 with h3
          rw [← h3] at hmem
          rcases List.mem_append.1 hmem with hl | hr
          · rcases List.mem_map.1 hl with ⟨dd, _, heq2⟩
            injection heq2 with he1 he2
            exact ⟨v, List.mem_cons_self _ _, he1⟩
          · obtain ⟨w, hw, hwid⟩ := ih ws2 hrec i d hr
            exact ⟨w, List.mem_cons_of_mem _ hw, hwid⟩

/-! Claim theorems. -/

/-- C1: _set_resource_tags computes the delta as exactly the entries of the
desired tag dict whose key is absent from the resource's current tags or
whose current value differs from the desired value; a non-empty delta issues
exactly one write call carrying exactly that delta, and an empty delta
issues no write call at all.  The resource is taggable (core.py only passes
TaggedEC2Objects); the desired tags form a Python dict, hence the Nodup
hypothesis on their keys. -/
theorem C1_set_resource_tags_delta (rt ts : Tags)
    (hts : (ts.map Prod.fst).Nodup) :
    (∀ k v, (k, v) ∈ computeDelta rt ts ↔
      ((k, v) ∈ ts ∧ (lookupKey rt k = none ∨
        ∃ w, lookupKey rt k = some w ∧ w ≠ v))) ∧
    (computeDelta rt ts ≠ [] →
      set_resource_tags true rt ts = .ok [computeDelta rt ts]) ∧
    (computeDelta rt ts = [] → set_resource_tags true rt ts = .ok []) := by
  refine ⟨?_, ?_, ?_⟩
  · intro k v
    rw [computeDelta_eq_filter rt ts hts, List.mem_filter]
    constructor
    · rintro ⟨hmem, hcond⟩
      refine ⟨hmem, ?_⟩
      have hc : ¬ lookupKey rt k = some v := by simpa using hcond
      cases hl : lookupKey rt k with
      | none => exact Or.inl rfl
      | some w =>
        refine Or.inr ⟨w, rfl, ?_⟩
        intro he
        exact hc (by rw [hl, he])
    · rintro ⟨hmem, hdis⟩
      refine ⟨hmem, ?_⟩
      simp only [decide_eq_true_eq]
      rcases hdis with hnone | ⟨w, hw, hne⟩
      · intro hc
        rw [hnone] at hc
        cases hc
      · intro hc
        rw [hw] at hc
        exact hne (Option.some_inj.1 hc)
  · intro hne
    have hlen : ¬ (computeDelta rt ts).length = 0 := by
      simpa [List.length_eq_zero] using hne
    simp [set_resource_tags, hlen]
  · intro heq
    simp [set_resource_tags, heq]

/-- C1 witness: the theorem applied to the concrete resource tags rtC1 and
desired tags tsC1. -/
theorem C1_set_resource_tags_delta_witness :
    ((tsC1.map Prod.fst).Nodup) ∧
    ((∀ k v, (k, v) ∈ computeDelta rtC1 tsC1 ↔
      ((k, v) ∈ tsC1 ∧ (lookupKey rtC1 k = none ∨
        ∃ w, lookupKey rtC1 k = some w ∧ w ≠ v))) ∧
    (computeDelta rtC1 tsC1 ≠ [] →
      set_resource_tags true rtC1 tsC1 = .ok [computeDelta rtC1 tsC1]) ∧
    (computeDelta rtC1 tsC1 = [] → set_resource_tags true rtC1 tsC1 = .ok [])) :=
  ⟨by decide, C1_set_resource_tags_delta rtC1 tsC1 (by decide)⟩

/-- C2: with the dryrun flag set, tag_volume and tag_snapshot return success
(True) without issuing any write call, for every resource, every append
setting and every tag-name configuration; the hypotheses say the
per-resource parent lookup succeeds (the stage builds the parent dict from
the same resource set, and only attached volumes reach tag_volume).  No
write call means the provider-side tag state is untouched. -/
theorem C2_dryrun_never_writes (append : Bool) (propI propV : List String)
    (v : Volume) (instances : List (String × Ec2Instance)) (iid : String)
    (inst : Ec2Instance) (s : Snapshot) (volumes : List (String × Volume))
    (pvol : Volume)
    (h1 : truthy v.attach_data.instance_id = some iid)
    (h2 : lookupKey instances iid = some inst)
    (h3 : lookupKey volumes s.volume_id = some pvol) :
    (∃ m, tag_volume true append propI v instances = .ok ⟨true, m, []⟩) ∧
    (∃ m, tag_snapshot true append propV s volumes = .ok ⟨true, m, []⟩) := by
  constructor
  · refine ⟨if append then volumeTagsToSet append propI v inst iid
      else v.tags, ?_⟩
    unfold tag_volume
    rw [h1]
    have hred : (match lookupKey instances iid with
        | none => (Except.error PyError.keyError : Except PyError TagResult)
        | some inst =>
            finishTagging true v.taggable
              (if append then volumeTagsToSet append propI v inst iid
               else v.tags)
              (volumeTagsToSet append propI v inst iid)) =
        Except.ok ⟨true,
          (if append then volumeTagsToSet append propI v inst iid else v.tags),
          []⟩ := by
      rw [h2]
      rfl
    exact hred
  · refine ⟨if append then
        propagateFrom pvol.tags propV (if append then s.tags else [])
      else s.tags, ?_⟩
    unfold tag_snapshot
    rw [h3]
    rfl

/-- C2 witness: the theorem applied to the example volume, instance dict,
snapshot and volume dict. -/
theorem C2_dryrun_never_writes_witness :
    truthy volExample.attach_data.instance_id = some "i-1" ∧
    lookupKey instancesExample "i-1" = some instExample ∧
    lookupKey volumesDictExample snapExample.volume_id = some volTagged ∧
    ((∃ m, tag_volume true false ["env"] volExample instancesExample =
        .ok ⟨true, m, []⟩) ∧
     (∃ m, tag_snapshot true false ["env"] snapExample volumesDictExample =
        .ok ⟨true, m, []⟩)) :=
  ⟨by decide, by decide, by decide,
   C2_dryrun_never_writes false ["env"] ["env"] volExample instancesExample
     "i-1" instExample snapExample volumesDictExample volTagged
     (by decide) (by decide) (by decide)⟩

/-- C3: propagation is idempotent.  Run tag_volume (resp. tag_snapshot) on a
resource; the provider merges the issued write deltas into the resource's
tags, which is what a fresh listing returns on the next run.  Running the
same propagation again on that resulting tag state issues zero write calls,
for every mode (dry-run or not, append or replace) and tag configuration.
The Nodup hypotheses say the resources' tag dicts have distinct keys, as
Python dicts do. -/
theorem C3_second_run_writes_nothing (dryrun append : Bool)
    (propI propV : List String)
    (v : Volume) (instances : List (String × Ec2Instance))
    (s : Snapshot) (volumes : List (String × Volume))
    (r1 r2 q1 q2 : TagResult)
    (hv : (v.tags.map Prod.fst).Nodup) (hs : (s.tags.map Prod.fst).Nodup)
    (h1 : tag_volume dryrun append propI v instances = .ok r1)
    (h2 : tag_volume dryrun append propI
      { v with tags := r1.writes.foldl applyDelta v.tags } instances = .ok r2)
    (h3 : tag_snapshot dryrun append propV s volumes = .ok q1)
    (h4 : tag_snapshot dryrun append propV
      { s with tags := q1.writes.foldl applyDelta s.tags } volumes = .ok q2) :
    r2.writes = [] ∧ q2.writes = [] := by
  constructor
  · obtain ⟨iid1, inst1, htr1, hlk1, hf1⟩ := tag_volume_ok_inv _ _ _ _ _ _ h1
    obtain ⟨iid2, inst2, htr2, hlk2, hf2⟩ := tag_volume_ok_inv _ _ _ _ _ _ h2
    have hiid : iid2 = iid1 := by
      have hee : some iid1 = some iid2 := htr1.symm.trans htr2
      exact (Option.some_inj.1 hee).symm
    subst hiid
    have hinst : inst2 = inst1 := by
      have hee : some inst1 = some inst2 := hlk1.symm.trans hlk2
      exact (Option.some_inj.1 hee).symm
    subst hinst
    cases append with
    | false =>
      have hts : ((volumeTagsToSet false propI v inst2 iid2).map
          Prod.fst).Nodup :=
        nodup_keys_volumeTagsToSet false propI v inst2 iid2 hv
      exact finishTagging_roundtrip_writes_nil dryrun v.taggable v.tags
        (volumeTagsToSet false propI v inst2 iid2) r1 r2 hts hf1 hf2
    | true =>
      have hts2 : ((volumeTagsToSet true propI
          { v with tags := r1.writes.foldl applyDelta v.tags }
          inst2 iid2).map Prod.fst).Nodup :=
        nodup_keys_volumeTagsToSet true propI _ inst2 iid2
          (nodup_keys_foldl_applyDelta r1.writes v.tags hv)
      exact finishTagging_self_writes_nil dryrun v.taggable _ r2 hts2 hf2
  · obtain ⟨vol1, hlk1, hf1⟩ := tag_snapshot_ok_inv _ _ _ _ _ _ h3
    obtain ⟨vol2, hlk2, hf2⟩ := tag_snapshot_ok_inv _ _ _ _ _ _ h4
    have hvol : vol2 = vol1 := by
      have hee : some vol1 = some vol2 := hlk1.symm.trans hlk2
      exact (Option.some_inj.1 hee).symm
    subst hvol
    cases append with
    | false =>
      have hts : ((propagateFrom vol2.tags propV ([] : Tags)).map
          Prod.fst).Nodup :=
        nodup_keys_propagateFrom vol2.tags propV [] (by simp)
      exact finishTagging_roundtrip_writes_nil dryrun s.taggable s.tags
        (propagateFrom vol2.tags propV []) q1 q2 hts hf1 hf2
    | true =>
      have hts2 : ((propagateFrom vol2.tags propV
          (q1.writes.foldl applyDelta s.tags)).map Prod.fst).Nodup :=
        nodup_keys_propagateFrom vol2.tags propV _
          (nodup_keys_foldl_applyDelta q1.writes s.tags hs)
      exact finishTagging_self_writes_nil dryrun s.taggable _ q2 hts2 hf2

/-- C3 witness: the theorem applied to the example volume and snapshot in
replace mode without dry-run; the first run writes the full tag set, the
second run (on the merged tags) writes nothing. -/
theorem C3_second_run_writes_nothing_witness :
    ((volExample.tags.map Prod.fst).Nodup) ∧
    ((snapExample.tags.map Prod.fst).Nodup) ∧
    tag_volume false false ["env"] volExample instancesExample = .ok r1C3 ∧
    tag_volume false false ["env"]
      { volExample with tags := r1C3.writes.foldl applyDelta volExample.tags }
      instancesExample = .ok r2C3 ∧
    tag_snapshot false false ["env"] snapExample volumesDictExample =
      .ok q1C3 ∧
    tag_snapshot false false ["env"]
      { snapExample with tags := q1C3.writes.foldl applyDelta snapExample.tags }
      volumesDictExample = .ok q2C3 ∧
    (r2C3.writes = [] ∧ q2C3.writes = []) :=
  ⟨by decide, by decide, rfl, rfl, rfl, rfl,
   C3_second_run_writes_nothing false false ["env"] ["env"]
     volExample instancesExample snapExample volumesDictExample
     r1C3 r2C3 q1C3 q2C3 (by decide) (by decide) rfl rfl rfl rfl⟩

/-- C4: a volume whose status is not "in-use" (AWS encodes "attached to an
instance" as status "in-use") is skipped by the volume stage loop as a
successful no-op, regardless of the dry-run, append and tag-name
configuration: processing the batch with it is identical to processing the
batch without it — in particular no per-volume parent lookup, no delta
computation and no write call happen for it (tag_volume is never invoked on
it), and no write in the stage result carries its id (when no sibling shares
its id). -/
theorem C4_skip_not_in_use (dryrun append : Bool) (tagNames : List String)
    (instances : List (String × Ec2Instance)) (v : Volume)
    (rest : List Volume) (h : v.status ≠ "in-use") :
    tagVolumesLoop dryrun append tagNames instances (v :: rest) =
      tagVolumesLoop dryrun append tagNames instances rest ∧
    (∀ ws, tagVolumesLoop dryrun append tagNames instances (v :: rest) =
        .ok ws →
      (∀ w ∈ rest, w.id ≠ v.id) → ∀ d, (v.id, d) ∉ ws) := by
  have heq : tagVolumesLoop dryrun append tagNames instances (v :: rest) =
      tagVolumesLoop dryrun append tagNames instances rest := by
    simp only [tagVolumesLoop, if_pos h]
  refine ⟨heq, ?_⟩
  intro ws hws hids d hmem
  rw [heq] at hws
  obtain ⟨w, hw, hwid⟩ := tagVolumesLoop_writes_ids dryrun append tagNames
    instances rest ws hws v.id d hmem
  exact hids w hw hwid

/-- C4 witness: the theorem applied to the unattached example volume
(status "available") as the head of a batch. -/
theorem C4_skip_not_in_use_witness :
    volUnattached.status ≠ "in-use" ∧
    (tagVolumesLoop false false ["env"] instancesExample [volUnattached] =
      tagVolumesLoop false false ["env"] instancesExample [] ∧
    (∀ ws, tagVolumesLoop false false ["env"] instancesExample
        [volUnattached] = .ok ws →
      (∀ w ∈ ([] : List Volume), w.id ≠ volUnattached.id) →
      ∀ d, (volUnattached.id, d) ∉ ws)) :=
  ⟨by decide,
   C4_skip_not_in_use false false ["env"] instancesExample volUnattached []
     (by decide)⟩

/-- C5 (code defect, claimed behaviour vs. actual): the explicit-id
validation does NOT remove every absent requested id, and it can abort the
run.  The volume loop removes elements of self._volumes_to_tag while
iterating over it by index, so of two consecutive missing ids only the
first is removed and logged: with requested ["vol-a", "vol-b"] and an empty
inventory the loop ends with "vol-b" still in the filter and only "vol-a"
logged, and the stage returns with "vol-b" unremoved.  The snapshot-side
validation loop references volume_id / volume_ids, which are unbound in
tag_snapshots, so any non-empty snapshot filter raises NameError and aborts
the stage instead of continuing. -/
theorem C5_validation_defect :
    pyValidate [] ["vol-a", "vol-b"] = (["vol-b"], ["vol-a"]) ∧
    tag_volumes cfgTwoMissing provEmpty =
      .ok ({ cfgTwoMissing with volumes_to_tag := ["vol-b"] }, []) ∧
    tag_snapshots cfgSnapFilter provEmpty = .error .nameError :=
  ⟨by decide, rfl, rfl⟩

/-- C6: the retry wrapper (for attempt in range(5) with the two except
clauses) satisfies: a propagator failing transiently on attempts 0..k-1
(k lower than 5) and succeeding on attempt k yields Success after exactly
k+1 attempts with exactly the k backoff sleeps 0, 1, ..., k-1 — durations
monotonically non-decreasing in the attempt number, with a zero-second
delay before the first retry; a propagator that always fails transiently
yields ExhaustedFailure after exactly 5 attempts; a propagator failing
permanently (EC2ResponseError) on the first attempt makes exactly 1
attempt. -/
theorem C6_retry_wrapper :
    (∀ (f : Nat → AttemptOutcome) (k : Nat), k < 5 →
      (∀ i, i < k → f i = .botoServerError) → f k = .success →
      retryResource f = (k + 1, List.range k, Except.ok .Success) ∧
      List.Pairwise (fun a b => a ≤ b) (List.range k) ∧
      (0 < k → (List.range k).head? = some 0)) ∧
    (∀ f : Nat → AttemptOutcome, (∀ i, f i = .botoServerError) →
      retryResource f = (5, List.range 5, Except.ok .ExhaustedFailure)) ∧
    (∀ f : Nat → AttemptOutcome, f 0 = .ec2ResponseError →
      retryResource f = (1, [], Except.ok .PermanentFailure)) := by
  have hr5 : List.range 5 = [0, 1, 2, 3, 4] := rfl
  refine ⟨?_, ?_, ?_⟩
  · intro f k hk h1 h2
    interval_cases k
    · exact ⟨by simp [retryResource, hr5, retryGo, h2], by decide, by decide⟩
    · exact ⟨by simp [retryResource, hr5, retryGo, h1 0 (by norm_num), h2,
        show List.range 1 = [0] from rfl], by decide, by decide⟩
    · exact ⟨by simp [retryResource, hr5, retryGo, h1 0 (by norm_num),
        h1 1 (by norm_num), h2, show List.range 2 = [0, 1] from rfl],
        by decide, by decide⟩
    · exact ⟨by simp [retryResource, hr5, retryGo, h1 0 (by norm_num),
        h1 1 (by norm_num), h1 2 (by norm_num), h2,
        show List.range 3 = [0, 1, 2] from rfl], by decide, by decide⟩
    · exact ⟨by simp [retryResource, hr5, retryGo, h1 0 (by norm_num),
        h1 1 (by norm_num), h1 2 (by norm_num), h1 3 (by norm_num), h2,
        show List.range 4 = [0, 1, 2, 3] from rfl], by decide, by decide⟩
  · intro f hf
    simp [retryResource, hr5, retryGo, hf 0, hf 1, hf 2, hf 3, hf 4]
  · intro f hf
    simp [retryResource, hr5, retryGo, hf]

/-- C6 witness: the theorem applied to three concrete propagators: two
transient failures then success, always-transient, and permanent on the
first attempt. -/
theorem C6_retry_wrapper_witness :
    (2 < 5 ∧ (∀ i, i < 2 → fTrans2 i = .botoServerError) ∧
      fTrans2 2 = .success ∧
      (retryResource fTrans2 = (3, List.range 2, Except.ok .Success) ∧
       List.Pairwise (fun a b => a ≤ b) (List.range 2) ∧
       (0 < 2 → (List.range 2).head? = some 0))) ∧
    ((∀ i, fAllTrans i = .botoServerError) ∧
      retryResource fAllTrans = (5, List.range 5, Except.ok .ExhaustedFailure)) ∧
    (fPerm 0 = .ec2ResponseError ∧
      retryResource fPerm = (1, [], Except.ok .PermanentFailure)) := by
  refine ⟨⟨by decide, by decide, by decide, ?_⟩,
    ⟨fun i => rfl, ?_⟩, ⟨rfl, ?_⟩⟩
  · exact C6_retry_wrapper.1 fTrans2 2 (by decide) (by decide) (by decide)
  · exact C6_retry_wrapper.2.1 fAllTrans (fun i => rfl)
  · exact C6_retry_wrapper.2.2 fPerm rfl

/-- C7 counterexample: a wrong-resource-type error DOES abort the siblings.
The GraffitiMonkeyException that _set_resource_tags raises for a
non-TaggedEC2Object is caught by no except clause of the stage loop, so
with the non-taggable volume first in the batch the whole tag_volumes stage
aborts with the exception and the sibling v-2 is never processed — although
the same stage on v-2 alone tags it successfully. -/
theorem C7_counterexample_gm_exception_aborts_batch :
    tag_volumes cfgBase provBadFirst = .error .gmException ∧
    tag_volumes cfgBase provGoodOnly =
      .ok (cfgBase, [("v-2",
        [("env", some "prod"), ("instance_id", some "i-1"),
         ("device", some "/dev/sdg")])]) :=
  ⟨rfl, rfl⟩

/-- C7 amended: only the errors the stage loop's except clauses actually
catch are per-resource.  EC2ResponseError (permanent: logged, resource
skipped after one attempt) and BotoServerError (transient: retried, then
ExhaustedFailure) never abort processing of sibling resources — a batch
whose per-attempt outcomes contain no uncaught exception always completes
with one retry outcome per resource.  The wrong-resource-type
GraffitiMonkeyException, excluded by the hypothesis, propagates out of the
loop and aborts the remaining batch, as the counterexample shows. -/
theorem C7_amended_caught_errors_never_abort (f : Nat → Nat → AttemptOutcome)
    (idxs : List Nat) (h : ∀ i a, f i a ≠ .uncaughtException) :
    ∃ rs, processBatch f idxs = .ok rs ∧ rs.length = idxs.length := by
  induction idxs with
  | nil => exact ⟨[], rfl, rfl⟩
  | cons i rest ih =>
    obtain ⟨rs, hrs, hlen⟩ := ih
    obtain ⟨c2, s2, r, heq⟩ :=
      retryGo_no_uncaught (f i) (h i) (List.range 5) 0 []
    have hr2 : (retryResource (f i)).2.2 = Except.ok r := by
      show (retryGo (f i) (List.range 5) 0 []).2.2 = Except.ok r
      rw [heq]
    refine ⟨r :: rs, ?_, by simp [hlen]⟩
    simp only [processBatch]
    rw [hr2, hrs]
    rfl

/-- C7 amended witness: a two-resource batch whose first resource fails
permanently and whose second always fails transiently still completes with
an outcome for each resource. -/
theorem C7_amended_caught_errors_never_abort_witness :
    (∀ i a, fMixed i a ≠ AttemptOutcome.uncaughtException) ∧
    (∃ rs, processBatch fMixed [0, 1] = .ok rs ∧ rs.length = 2) := by
  have hno : ∀ i a, fMixed i a ≠ AttemptOutcome.uncaughtException := by
    intro i a hcon
    unfold fMixed at hcon
    by_cases h0 : i = 0
    · rw [if_pos h0] at hcon
      cases hcon
    · rw [if_neg h0] at hcon
      cases hcon
  exact ⟨hno, C7_amended_caught_errors_never_abort fMixed [0, 1] hno⟩

theorem volumesListerStep_snd (cfg : Config) (p : Provider) :
    (volumesListerStep cfg p).2 =
      if cfg.volumes_to_tag ≠ [] then
        { cfg with volumes_to_tag :=
            (pyValidate
              ((get_all_volumes p (some cfg.volumes_to_tag)).map Volume.id)
              cfg.volumes_to_tag).1 }
      else cfg := by
  unfold volumesListerStep
  by_cases h : cfg.volumes_to_tag ≠ [] <;> simp [h]

theorem tag_volumes_ok_cfg (cfg : Config) (p : Provider) (cfg' : Config)
    (ws : List (String × Tags)) (h : tag_volumes cfg p = .ok (cfg', ws)) :
    cfg' = (volumesListerStep cfg p).2 := by
  simp only [tag_volumes] at h
  by_cases hie : (volumesListerStep cfg p).1.isEmpty
  · rw [if_pos hie] at h
    have h2 : ((volumesListerStep cfg p).2, ([] : List (String × Tags))) =
        (cfg', ws) := by injection h
    exact (congrArg Prod.fst h2).symm
  · rw [if_neg hie] at h
    cases hloop : tagVolumesLoop (volumesListerStep cfg p).2.dryrun
        (volumesListerStep cfg p).2.append
        (volumesListerStep cfg p).2.instance_tags_to_propagate
        (volumesParentDict p (volumesListerStep cfg p).1)
        (volumesListerStep cfg p).1 with
    | error e =>
      rw [hloop] at h
      cases h
    | ok ws2 =>
      rw [hloop] at h
      have h2 : ((volumesListerStep cfg p).2, ws2) = (cfg', ws) := by
        injection h
      exact (congrArg Prod.fst h2).symm

/-- C8 counterexample: the configuration bundle is NOT read-only to the
core.  Requesting a volume id the provider does not have makes tag_volumes
remove it from the caller's volume-id filter list in place: the stage
returns a configuration that differs from the one supplied. -/
theorem C8_counterexample_filter_mutated :
    tag_volumes cfgMissingVol provEmpty =
      .ok ({ cfgMissingVol with volumes_to_tag := [] }, []) ∧
    { cfgMissingVol with volumes_to_tag := ([] : List String) } ≠
      cfgMissingVol :=
  ⟨rfl, by decide⟩

/-- C8 amended: the mutation is confined to the explicit id filter lists.
Every configuration field other than volumes_to_tag is unchanged by
tag_volumes; volumes_to_tag only loses elements (a sublist of the input),
ids present in the provider listing are never removed, and with no explicit
filter the configuration is returned untouched.  tag_snapshots never
returns a mutated configuration (its only mutating branch, the explicit
snapshot filter, always raises NameError instead of completing). -/
theorem C8_amended_config_mutation_bounded :
    (∀ (cfg : Config) (p : Provider) (cfg' : Config)
        (ws : List (String × Tags)),
      tag_volumes cfg p = .ok (cfg', ws) →
      cfg'.region = cfg.region ∧ cfg'.profile = cfg.profile ∧
      cfg'.instance_tags_to_propagate = cfg.instance_tags_to_propagate ∧
      cfg'.volume_tags_to_propagate = cfg.volume_tags_to_propagate ∧
      cfg'.dryrun = cfg.dryrun ∧ cfg'.append = cfg.append ∧
      cfg'.snapshots_to_tag = cfg.snapshots_to_tag ∧
      cfg'.novolumes = cfg.novolumes ∧ cfg'.nosnapshots = cfg.nosnapshots ∧
      cfg'.volumes_to_tag.Sublist cfg.volumes_to_tag ∧
      (∀ x ∈ cfg.volumes_to_tag,
        x ∈ (get_all_volumes p (some cfg.volumes_to_tag)).map Volume.id →
        x ∈ cfg'.volumes_to_tag) ∧
      (cfg.volumes_to_tag = [] → cfg' = cfg)) ∧
    (∀ (cfg : Config) (p : Provider) (cfg' : Config)
        (ws : List (String × Tags)),
      tag_snapshots cfg p = .ok (cfg', ws) → cfg' = cfg) := by
  constructor
  · intro cfg p cfg' ws h
    have hcfg : cfg' = (volumesListerStep cfg p).2 :=
      tag_volumes_ok_cfg cfg p cfg' ws h
    rw [hcfg, volumesListerStep_snd]
    by_cases hreq : cfg.volumes_to_tag ≠ []
    · rw [if_pos hreq]
      refine ⟨rfl, rfl, rfl, rfl, rfl, rfl, rfl, rfl, rfl, ?_, ?_, ?_⟩
      · exact pyValidateGo_sublist _ _ 0 cfg.volumes_to_tag []
      · intro x hx hxl
        exact pyValidateGo_keeps_present _ _ 0 cfg.volumes_to_tag [] x hxl hx
      · intro hemp
        exact absurd hemp hreq
    · rw [if_neg hreq]
      exact ⟨rfl, rfl, rfl, rfl, rfl, rfl, rfl, rfl, rfl,
        List.Sublist.refl _, fun x hx _ => hx, fun _ => rfl⟩
  · intro cfg p cfg' ws h
    simp only [tag_snapshots] at h
    by_cases hf : cfg.snapshots_to_tag ≠ []
    · rw [if_pos hf] at h
      cases h
    · rw [if_neg hf] at h
      by_cases hie : (snapshotWorkingSet cfg p).isEmpty
      · rw [if_pos hie] at h
        have h2 : (cfg, ([] : List (String × Tags))) = (cfg', ws) := by
          injection h
        exact (congrArg Prod.fst h2).symm
      · rw [if_neg hie] at h
        cases hloop : tagSnapshotsLoop cfg.dryrun cfg.append
            cfg.volume_tags_to_propagate
            (snapshotsParentDict p (snapshotWorkingSet cfg p))
            (snapshotWorkingSet cfg p) with
        | error e =>
          rw [hloop] at h
          cases h
        | ok ws2 =>
          rw [hloop] at h
          have h2 : (cfg, ws2) = (cfg', ws) := by injection h
          exact (congrArg Prod.fst h2).symm

/-- C8 amended witness: the theorem applied to the configuration that
requests the missing volume id vol-a against the empty provider. -/
theorem C8_amended_config_mutation_bounded_witness :
    tag_volumes cfgMissingVol provEmpty =
      .ok ({ cfgMissingVol with volumes_to_tag := [] }, []) ∧
    ({ cfgMissingVol with volumes_to_tag :=
        ([] : List String) }).volumes_to_tag.Sublist
      cfgMissingVol.volumes_to_tag ∧
    ({ cfgMissingVol with volumes_to_tag := ([] : List String) }).dryrun =
      cfgMissingVol.dryrun ∧
    tag_snapshots cfgBase provEmpty = .ok (cfgBase, []) ∧ cfgBase = cfgBase :=
  ⟨rfl,
   (C8_amended_config_mutation_bounded.1 cfgMissingVol provEmpty
     { cfgMissingVol with volumes_to_tag := [] } [] rfl).2.2.2.2.2.2.2.2.2.1,
   (C8_amended_config_mutation_bounded.1 cfgMissingVol provEmpty
     { cfgMissingVol with volumes_to_tag := [] } [] rfl).2.2.2.2.1,
   rfl,
   C8_amended_config_mutation_bounded.2 cfgBase provEmpty cfgBase [] rfl⟩

/-- C9: in append mode the tags_to_set accumulator is the volume's own
in-memory tag dict (tags_to_set = volume.tags aliases, it does not copy),
so tag_volume installs the propagated parent tags and the synthetic
instance_id and device entries into the volume object's tags before any
write decision.  With dry-run set: the call returns success with no write
call, yet the in-memory tags it leaves on the volume are the full mutated
accumulator — holding the device path, the instance id, every propagated
parent tag, and the volume's own pre-existing entries for untouched keys. -/
theorem C9_append_mode_aliases_resource_tags (tagNames : List String)
    (v : Volume) (instances : List (String × Ec2Instance)) (iid : String)
    (inst : Ec2Instance)
    (h1 : truthy v.attach_data.instance_id = some iid)
    (h2 : lookupKey instances iid = some inst) :
    tag_volume true true tagNames v instances =
      .ok ⟨true, volumeTagsToSet true tagNames v inst iid, []⟩ ∧
    lookupKey (volumeTagsToSet true tagNames v inst iid) "device" =
      some (truthy v.attach_data.device) ∧
    lookupKey (volumeTagsToSet true tagNames v inst iid) "instance_id" =
      some (some iid) ∧
    (∀ t, t ∈ tagNames → t ≠ "instance_id" → t ≠ "device" →
      ∀ val, lookupKey inst.tags t = some val →
        lookupKey (volumeTagsToSet true tagNames v inst iid) t = some val) ∧
    (∀ t, t ∉ tagNames → t ≠ "instance_id" → t ≠ "device" →
      lookupKey (volumeTagsToSet true tagNames v inst iid) t =
        lookupKey v.tags t) := by
  refine ⟨?_, ?_, ?_, ?_, ?_⟩
  · unfold tag_volume
    rw [h1]
    have hred : (match lookupKey instances iid with
        | none => (Except.error PyError.keyError : Except PyError TagResult)
        | some inst =>
            finishTagging true v.taggable
              (if true then volumeTagsToSet true tagNames v inst iid
               else v.tags)
              (volumeTagsToSet true tagNames v inst iid)) =
        Except.ok ⟨true, volumeTagsToSet true tagNames v inst iid, []⟩ := by
      rw [h2]
      rfl
    exact hred
  · exact lookupKey_dictSet_self _ "device" _
  · unfold volumeTagsToSet
    rw [lookupKey_dictSet_ne _ "device" "instance_id" _ (by decide)]
    exact lookupKey_dictSet_self _ "instance_id" _
  · intro t hmem hti htd val hval
    unfold volumeTagsToSet
    rw [lookupKey_dictSet_ne _ "device" t _ htd,
      lookupKey_dictSet_ne _ "instance_id" t _ hti]
    exact lookupKey_propagateFrom_mem inst.tags tagNames _ t val hval hmem
  · intro t hmem hti htd
    unfold volumeTagsToSet
    rw [lookupKey_dictSet_ne _ "device" t _ htd,
      lookupKey_dictSet_ne _ "instance_id" t _ hti,
      lookupKey_propagateFrom_not_mem inst.tags tagNames _ t hmem]
    rfl

/-- C9 witness: the theorem applied to the example volume in append + dry-run
mode; the resulting in-memory tag dict differs from the volume's original
tags although no write call was made. -/
theorem C9_append_mode_aliases_resource_tags_witness :
    truthy volExample.attach_data.instance_id = some "i-1" ∧
    lookupKey instancesExample "i-1" = some instExample ∧
    tag_volume true true ["env"] volExample instancesExample =
      .ok ⟨true, volumeTagsToSet true ["env"] volExample instExample "i-1",
        []⟩ ∧
    lookupKey (volumeTagsToSet true ["env"] volExample instExample "i-1")
      "device" = some (truthy volExample.attach_data.device) ∧
    volumeTagsToSet true ["env"] volExample instExample "i-1" ≠
      volExample.tags := by
  have h := C9_append_mode_aliases_resource_tags ["env"] volExample
    instancesExample "i-1" instExample (by decide) (by decide)
  exact ⟨by decide, by decide, h.1, h.2.1, by decide⟩

/-- C10: both snapshot-listing branches of tag_snapshots call
get_all_snapshots with owner='self' — the explicit-id-filter branch and the
list-all branch alike — so a snapshot owned by a different account is never
placed in the working set, even when its id is explicitly requested in
snapshots_to_tag. -/
theorem C10_snapshot_working_set_owner_self (cfg : Config) (p : Provider)
    (s : Snapshot) (h : s.owner ≠ p.selfId) :
    s ∉ snapshotWorkingSet cfg p := by
  intro hmem
  unfold snapshotWorkingSet at hmem
  by_cases hf : cfg.snapshots_to_tag ≠ []
  · rw [if_pos hf] at hmem
    simp only [get_all_snapshots_self] at hmem
    rcases List.mem_filter.1 hmem with ⟨_, hcond⟩
    exact h (of_decide_eq_true hcond).1
  · rw [if_neg hf] at hmem
    simp only [get_all_snapshots_self] at hmem
    rcases List.mem_filter.1 hmem with ⟨_, hcond⟩
    exact h (of_decide_eq_true hcond)

/-- C10 witness: the foreign-owned snapshot s-2 is excluded from the working
set even when the configuration explicitly requests its id. -/
theorem C10_snapshot_working_set_owner_self_witness :
    snapForeign.owner ≠ provSnaps.selfId ∧
    snapForeign.id ∈ cfgForeign.snapshots_to_tag ∧
    snapForeign ∉ snapshotWorkingSet cfgForeign provSnaps :=
  ⟨by decide, by decide,
   C10_snapshot_working_set_owner_self cfgForeign provSnaps snapForeign
     (by decide)⟩

end GraffitiMonkey
